import Mathlib

/-!
Verification development for the Planet image-extraction tool
(src/Planet_imagery_extraction.py).

The Python source is shallowly embedded below.  Pure helpers become Lean
functions; code that raises exceptions returns `Except String`; the HTTP
layer is modelled by passing response values (and a fetch function for
downloads) explicitly.  Shapely geometry objects are modelled abstractly by
the attributes the script observes: geometry kind, part list, area,
validity, and the validity of the zero-buffer repair result; `unary_union`
is modelled for the disjoint-part (topologically valid) inputs the script
is specified for, where it keeps the parts in input order (collapsing a
one-part MultiPolygon to its single Polygon, as shapely does).
-/

namespace Planet

/-- Model of a shapely Polygon as the attributes the script observes:
its area, its validity flag, and whether the zero-width-buffer repair
attempt (`buffer(0)`) yields a valid polygon.  Modelled from the spec:
the shapely library itself is outside the repository. -/
structure Poly where
  area : ℚ
  is_valid : Bool
  fix_valid : Bool
deriving DecidableEq, Repr

/-- Model of shapely `p.buffer(0)`: the repair attempt keeps the polygon
data and is valid exactly when the polygon is repairable
(`fix_valid`).  Modelled from the spec: single repair attempt via a
zero-width buffer. -/
def buffer0 (p : Poly) : Poly :=
  { area := p.area, is_valid := p.fix_valid, fix_valid := p.fix_valid }

/-- Model of the shapely geometry values reaching `validate_geometry`:
a Polygon, a MultiPolygon with its list of parts in input order, a
non-areal geometry (e.g. a LineString, unsupported for an AOI), or an
empty geometry. -/
inductive Geom where
  | polygon (p : Poly)
  | multiPolygon (parts : List Poly)
  | lineString
  | emptyGeom
deriving DecidableEq, Repr

/-- Model of shapely `geom.is_empty`. -/
def Geom.is_empty : Geom → Bool
  | .multiPolygon parts => parts.isEmpty
  | .emptyGeom => true
  | _ => false

/-- Model of shapely `geom.geom_type` (the string interpolated into the
unsupported-type error message). -/
def Geom.geom_type : Geom → String
  | .polygon _ => "Polygon"
  | .multiPolygon _ => "MultiPolygon"
  | .lineString => "LineString"
  | .emptyGeom => "GeometryCollection"

/-- Model of shapely `unary_union` on the inputs the script is specified
for (parts pairwise disjoint, as in a topologically valid MultiPolygon):
the union keeps the parts in input order, and a one-part MultiPolygon
collapses to its single Polygon.  Modelled from the spec: shapely is
outside the repository. -/
def unary_union : Geom → Geom
  | .multiPolygon [p] => .polygon p
  | g => g

/-- Embedding of Python `max(merged.geoms, key=lambda p: p.area)` on the
non-empty list `p0 :: ps`: Python's `max` keeps the current maximum and
replaces it only when a strictly greater key appears, so on ties the
first-encountered maximal element wins. -/
def pyMaxByArea (p0 : Poly) (ps : List Poly) : Poly :=
  ps.foldl (fun best q => if best.area < q.area then q else best) p0

/-- Embedding of the polygon-selection phase of `validate_geometry`
(src lines 140-149): a Polygon is used as is; otherwise the input is
unioned and a resulting MultiPolygon is reduced to its largest-area part;
any other union result is an unsupported geometry type.  Python `max` on
an empty sequence raises; that branch is unreachable because empty input
is rejected first. -/
def selectPoly (geom : Geom) : Except String Poly :=
  match geom with
  | .polygon p => .ok p
  | g =>
    match unary_union g with
    | .polygon p => .ok p
    | .multiPolygon [] => .error "max() arg is an empty sequence"
    | .multiPolygon (p0 :: rest) => .ok (pyMaxByArea p0 rest)
    | _ => .error ("Unsupported geometry type for AOI: " ++ g.geom_type)

/-- Embedding of `validate_geometry` (src lines 137-154): reject empty
input, select a single polygon, then repair invalid polygons with one
zero-buffer attempt, failing if the result is still invalid.  A raised
`ValueError` is modelled as `Except.error` with the message string. -/
def validate_geometry (geom : Geom) : Except String Poly :=
  if geom.is_empty then .error "AOI geometry is empty."
  else
    match selectPoly geom with
    | .error e => .error e
    | .ok poly =>
      if poly.is_valid then .ok poly
      else
        if (buffer0 poly).is_valid then .ok (buffer0 poly)
        else .error "AOI polygon is invalid and could not be fixed."

/-- Embedding of the `SearchParams` dataclass (src lines 71-80).  The
float thresholds are modelled as exact rationals; dates are the
YYYY-MM-DD strings the CLI passes through. -/
structure SearchParams where
  start_date : String
  end_date : String
  max_cloud_cover : ℚ := 1 / 10
  min_nadir : ℚ := -1
  max_nadir : ℚ := 1
  instruments : List String := ["PSB.SD"]
  item_types : List String := ["PSScene"]
  result_limit : ℕ := 100
deriving DecidableEq, Repr

/-- Config dict of a Planet DateRangeFilter: optional ISO-8601 UTC
timestamp bound per comparison key. -/
structure DateRangeConfig where
  gt : Option String := none
  gte : Option String := none
  lt : Option String := none
  lte : Option String := none
deriving DecidableEq, Repr

/-- Config dict of a Planet RangeFilter: optional numeric bound per
comparison key. -/
structure RangeConfig where
  gt : Option ℚ := none
  gte : Option ℚ := none
  lt : Option ℚ := none
  lte : Option ℚ := none
deriving DecidableEq, Repr

/-- Embedding of the Planet filter trees `build_planet_filters` can emit:
each constructor is one filter `type` tag with its `field_name` and
`config`. -/
inductive PFilter where
  | geometryFilter (field_name : String) (config : Geom)
  | dateRangeFilter (field_name : String) (config : DateRangeConfig)
  | rangeFilter (field_name : String) (config : RangeConfig)
  | stringInFilter (field_name : String) (config : List String)
  | andFilter (config : List PFilter)

/-- Embedding of `build_planet_filters` (src lines 166-201): the
AndFilter of the five predicates, in source order, with the exact
comparison keys the source writes (`gt`/`lt` for the date range,
`lt` for cloud cover, `gt`/`lte` for the view angle). -/
def build_planet_filters (geometry : Geom) (params : SearchParams) : PFilter :=
  .andFilter
    [ .geometryFilter "geometry" geometry,
      .dateRangeFilter "acquired"
        { gt := some (params.start_date ++ "T00:00:00Z"),
          lt := some (params.end_date ++ "T00:00:00Z") },
      .rangeFilter "cloud_cover" { lt := some params.max_cloud_cover },
      .rangeFilter "view_angle"
        { gt := some params.min_nadir, lte := some params.max_nadir },
      .stringInFilter "instrument" params.instruments ]

/-- Lexicographic order on character lists, with shorter prefixes first. -/
def charsLt : List Char → List Char → Bool
  | [], [] => false
  | [], _ :: _ => true
  | _ :: _, [] => false
  | a :: as, b :: bs =>
    if a < b then true else if b < a then false else charsLt as bs

/-- Chronological order of ISO-8601 UTC timestamp strings of a common
format, which coincides with lexicographic string order.  Modelled from
the spec: the provider evaluates DateRangeFilter bounds chronologically. -/
def isoLt (a b : String) : Bool :=
  charsLt a.toList b.toList

/-- Non-strict counterpart of `isoLt`. -/
def isoLe (a b : String) : Bool :=
  !(isoLt b a)

/-- Provider-side semantics of a DateRangeFilter config against an
acquisition timestamp: every present bound must hold, `gt`/`lt` strict
and `gte`/`lte` non-strict.  Modelled from the spec: the provider
evaluates the filter; the spec fixes these key semantics. -/
def DateRangeConfig.matches (c : DateRangeConfig) (t : String) : Bool :=
  (match c.gt with | some b => isoLt b t | none => true) &&
  (match c.gte with | some b => isoLe b t | none => true) &&
  (match c.lt with | some b => isoLt t b | none => true) &&
  (match c.lte with | some b => isoLe t b | none => true)

/-- First DateRangeFilter config found in a filter tree (the date
predicate a filter emits). -/
def firstDateConfig : PFilter → Option DateRangeConfig
  | .andFilter cfg =>
    cfg.findSome? (fun f =>
      match f with
      | .dateRangeFilter _ c => some c
      | _ => none)
  | .dateRangeFilter _ c => some c
  | _ => none

/-- Model of a scene record from Planet quick-search as the script reads
it: the feature `id` and the `properties.item_type` tag. -/
structure Feature where
  id : String
  item_type : String
deriving DecidableEq, Repr

/-- Model of the decoded quick-search JSON body: `features?` is `some`
exactly when the body has a "features" key holding a list. -/
structure SearchData where
  features? : Option (List Feature)
deriving DecidableEq, Repr

/-- Model of an HTTP response as the script observes it: the `ok` flag,
status code, and body text. -/
structure HttpResp where
  ok : Bool
  status_code : ℕ
  text : String
deriving DecidableEq, Repr

/-- Embedding of `quick_search` (src lines 204-222): fail on a
non-success response; otherwise truncate the feature list to
`result_limit` when it is present and longer than the limit, and return
the body otherwise unchanged. -/
def quick_search (resp : HttpResp) (data : SearchData) (params : SearchParams) :
    Except String SearchData :=
  if ¬ resp.ok then
    .error ("Quick-search failed: " ++ Nat.repr resp.status_code ++ " " ++ resp.text)
  else
    .ok { features? :=
      match data.features? with
      | some fs =>
        some (if fs.length > params.result_limit then fs.take params.result_limit else fs)
      | none => none }

/-- Model of one entry of the `_links.results` list of a completed
order: the remote `location` and the optional suggested `name`
(`none` models a missing "name" key). -/
structure ResultDesc where
  location : String
  name : Option String
deriving DecidableEq, Repr

/-- Model of the HTTP download of one result file: the status code and
the chunk sequence `iter_content` yields (bytes as naturals). -/
structure HttpFile where
  status_code : ℕ
  chunks : List (List ℕ)
deriving DecidableEq, Repr

/-- Concatenation of all bytes a download yields: the remote file's
content. -/
def HttpFile.content (f : HttpFile) : List ℕ :=
  f.chunks.flatten

/-- Splitting of a character list at a separator (used to model
`pathlib.Path(...).name`). -/
def splitOnChar (sep : Char) : List Char → List (List Char)
  | [] => [[]]
  | c :: cs =>
    match splitOnChar sep cs with
    | [] => [[c]]
    | g :: gs => if c = sep then [] :: g :: gs else (c :: g) :: gs

/-- Embedding of `pathlib.Path(s).name`: the last path component, with
separators, empty components and "." components dropped. -/
def pathName (s : String) : String :=
  ((splitOnChar '/' s.toList).foldl
    (fun acc part => if part = [] ∨ part = ['.'] then acc else part) []).asString

/-- Entry name used for the idx-th result descriptor (src lines
312-315): the suggested name, defaulting to "result_idx" for a missing
name, with directory components stripped. -/
def entry_name (idx : ℕ) (r : ResultDesc) : String :=
  pathName (r.name.getD ("result_" ++ Nat.repr idx))

/-- Embedding of the download loop body over `enumerate(results, start=idx)`
(src lines 312-330): fetch each descriptor's location, fail on an HTTP
error status (`raise_for_status`), write only non-empty chunks into the
in-memory buffer, and append one archive entry per descriptor. -/
def packageLoop (fetch : String → HttpFile) : ℕ → List ResultDesc →
    Except String (List (String × List ℕ))
  | _, [] => .ok []
  | idx, r :: rs =>
    if 400 ≤ (fetch r.location).status_code then
      .error ("Download failed: " ++ Nat.repr (fetch r.location).status_code)
    else
      match packageLoop fetch (idx + 1) rs with
      | .error e => .error e
      | .ok rest =>
        .ok ((entry_name idx r,
              ((fetch r.location).chunks.filter (fun b => b ≠ [])).flatten) :: rest)

/-- Embedding of the download-and-package phase of
`place_order_and_download` (src lines 302-332): an empty results list is
a provider-contract violation; otherwise the archive holds one entry per
descriptor, enumerated from 1. -/
def download_results (fetch : String → HttpFile) (results : List ResultDesc) :
    Except String (List (String × List ℕ)) :=
  if results = [] then .error "No results links present in completed order."
  else packageLoop fetch 1 results

/-- Model of one decoded order-status poll response: the transport `ok`
flag and status code/text, plus the decoded body fields the script
reads (`state` and `_links.results`). -/
structure PollResp where
  ok : Bool
  status_code : ℕ
  text : String
  state : String
  results : List ResultDesc
deriving DecidableEq, Repr

/-- Outcome of the polling loop (src lines 288-300) on a finite trace of
poll responses: exit with the successful status body, raise carrying the
full failed status body, raise on a non-success status fetch, or — when
the trace ends without a terminal state — keep polling. -/
inductive PollOutcome where
  | success (s : PollResp)
  | orderFailed (s : PollResp)
  | pollError (code : ℕ) (text : String)
  | polling
deriving DecidableEq, Repr

/-- Embedding of the polling loop of `place_order_and_download`
(src lines 288-300), one trace element per iteration: a non-success
status fetch raises; state "success" breaks out of the loop; state
"failed" raises carrying the full status payload; every other state
sleeps and polls again. -/
def pollLoop : List PollResp → PollOutcome
  | [] => .polling
  | r :: rs =>
    if ¬ r.ok then .pollError r.status_code r.text
    else if r.state = "success" then .success r
    else if r.state = "failed" then .orderFailed r
    else pollLoop rs

/-- Model of the decoded order-submission response: status code and body
text, plus the body's `id` and `_links._self` fields. -/
structure OrderAck where
  status_code : ℕ
  text : String
  id : String
  self_link : String
deriving DecidableEq, Repr

/-- Rendering of a result descriptor inside the diagnostic payload
(stands in for `json.dumps`). -/
def renderDesc (r : ResultDesc) : String :=
  "location=" ++ r.location ++ ", name=" ++ (match r.name with | some n => n | none => "null")

/-- Rendering of a full order-status payload, standing in for
`pretty(s)` in the failure message. -/
def prettyPoll (s : PollResp) : String :=
  "state=" ++ s.state ++ ", results=[" ++
    String.intercalate "; " (s.results.map renderDesc) ++ "]"

/-- Result of a completed `place_order_and_download` run: the packaged
archive entries, or — on a finite poll trace with no terminal state —
the marker that the loop is still polling. -/
inductive OrderResult where
  | bundle (entries : List (String × List ℕ))
  | waiting
deriving DecidableEq, Repr

/-- Embedding of the polling plus download phases of
`place_order_and_download` (src lines 288-332). -/
def poll_and_package (order_id : String) (polls : List PollResp)
    (fetch : String → HttpFile) : Except String OrderResult :=
  match pollLoop polls with
  | .polling => .ok .waiting
  | .pollError code text =>
    .error ("Failed to fetch order status: " ++ Nat.repr code ++ " " ++ text)
  | .orderFailed s =>
    .error ("Order " ++ order_id ++ " failed. Response: " ++ prettyPoll s)
  | .success s => (download_results fetch s.results).map .bundle

/-- Embedding of `place_order_and_download` (src lines 259-332): a
submission response other than HTTP 202 raises immediately; a 202
acknowledgement hands the order id and polling location to the
poll-then-download phase. -/
def place_order_and_download (submit : OrderAck) (polls : List PollResp)
    (fetch : String → HttpFile) : Except String OrderResult :=
  if submit.status_code ≠ 202 then
    .error ("Order failed: " ++ Nat.repr submit.status_code ++ " " ++ submit.text)
  else poll_and_package submit.id polls fetch

/-- Embedding of Python `str.strip()`: whitespace removed from both
ends. -/
def pyStrip (s : String) : String :=
  (((s.toList.dropWhile Char.isWhitespace).reverse.dropWhile
      Char.isWhitespace).reverse).asString

/-- Embedding of the non-interactive item selection of `main`
(src lines 434, 456-462): the stripped --item-id argument when
non-empty, else the first feature's id; then the item type of the first
feature whose id equals the chosen id, defaulting to the first feature.
Returns the (item id, item type) pair handed to the order. -/
def resolve_order_target (item_id_arg : String) (f0 : Feature)
    (rest : List Feature) : String × String :=
  let chosen := if pyStrip item_id_arg = "" then f0.id else pyStrip item_id_arg
  let m := ((f0 :: rest).find? (fun f => f.id == chosen)).getD f0
  (chosen, m.item_type)

/-- Embedding of the AOI iteration of `main` with respect to geometry
validation (src lines 411-413): `validate_geometry` is called outside
any try/except, so a raised error propagates and ends the run; the rest
of the per-AOI work is abstracted into the returned polygon list. -/
def process_aois (geoms : List Geom) : Except String (List Poly) :=
  match geoms with
  | [] => .ok []
  | g :: gs =>
    match validate_geometry g with
    | .error e => .error e
    | .ok p =>
      match process_aois gs with
      | .error e => .error e
      | .ok ps => .ok (p :: ps)

theorem pyMaxByArea_cons (p0 q : Poly) (ps : List Poly) :
    pyMaxByArea p0 (q :: ps) = pyMaxByArea (if p0.area < q.area then q else p0) ps :=
  rfl

theorem pyMaxByArea_first_max (ps : List Poly) :
    ∀ p0 : Poly, ∃ pre post,
      p0 :: ps = pre ++ pyMaxByArea p0 ps :: post ∧
      (∀ x ∈ pre, x.area < (pyMaxByArea p0 ps).area) ∧
      (∀ x ∈ p0 :: ps, x.area ≤ (pyMaxByArea p0 ps).area) := by
  induction ps with
  | nil =>
    intro p0
    exact ⟨[], [], rfl, by simp, by simp [pyMaxByArea]⟩
  | cons q ps ih =>
    intro p0
    rw [pyMaxByArea_cons]
    by_cases h : p0.area < q.area
    · rw [if_pos h]
      obtain ⟨pre, post, hdec, hpre, hall⟩ := ih q
      have hq : q.area ≤ (pyMaxByArea q ps).area := hall q (by simp)
      refine ⟨p0 :: pre, post, ?_, ?_, ?_⟩
      · rw [List.cons_append, ← hdec]
      · intro x hx
        rcases List.mem_cons.mp hx with rfl | hx
        · exact lt_of_lt_of_le h hq
        · exact hpre x hx
      · intro x hx
        rcases List.mem_cons.mp hx with rfl | hx
        · exact le_of_lt (lt_of_lt_of_le h hq)
        · exact hall x hx
    · rw [if_neg h]
      push_neg at h
      obtain ⟨pre, post, hdec, hpre, hall⟩ := ih p0
      cases pre with
      | nil =>
        simp only [List.nil_append] at hdec
        have hm : pyMaxByArea p0 ps = p0 := (List.cons.injEq _ _ _ _ ▸ hdec).1.symm
        have hpost : ps = post := (List.cons.injEq _ _ _ _ ▸ hdec).2
        refine ⟨[], q :: ps, ?_, by simp, ?_⟩
        · simp [hm]
        · intro x hx
          rcases List.mem_cons.mp hx with rfl | hx
          · exact hall x (by simp)
          · rcases List.mem_cons.mp hx with rfl | hx
            · rw [hm]; exact h
            · exact hall x (by simp [hx])
      | cons a pre₂ =>
        have ha : p0 = a := (List.cons.injEq _ _ _ _ ▸ hdec).1
        have hps : ps = pre₂ ++ pyMaxByArea p0 ps :: post :=
          (List.cons.injEq _ _ _ _ ▸ hdec).2
        have hp0lt : p0.area < (pyMaxByArea p0 ps).area := by
          have h₃ := hpre a (by simp)
          rw [← ha] at h₃
          exact h₃
        refine ⟨p0 :: q :: pre₂, post, ?_, ?_, ?_⟩
        · rw [List.cons_append, List.cons_append, ← hps]
        · intro x hx
          rcases List.mem_cons.mp hx with rfl | hx
          · exact hp0lt
          · rcases List.mem_cons.mp hx with rfl | hx
            · exact lt_of_le_of_lt h hp0lt
            · exact hpre x (by simp [hx])
        · intro x hx
          rcases List.mem_cons.mp hx with rfl | hx
          · exact hall x (by simp)
          · rcases List.mem_cons.mp hx with rfl | hx
            · exact le_trans h (le_of_lt hp0lt)
            · exact hall x (List.mem_cons.mpr (Or.inr hx))

theorem validate_geometry_multi (p0 : Poly) (ps : List Poly) :
    validate_geometry (.multiPolygon (p0 :: ps)) =
      (if (pyMaxByArea p0 ps).is_valid then .ok (pyMaxByArea p0 ps)
       else if (buffer0 (pyMaxByArea p0 ps)).is_valid then .ok (buffer0 (pyMaxByArea p0 ps))
       else .error "AOI polygon is invalid and could not be fixed.") := by
  cases ps with
  | nil => rfl
  | cons q ps => rfl

/-- C3: for a MultiPolygon input, normalization selects a member of the
input part list (not a merge), namely the greatest-area part, breaking
ties in favor of the first-encountered part in input order, and returns
it unmodified except for the validity repair. -/
theorem c3_multipolygon_selects_largest (p0 : Poly) (ps : List Poly) :
    (pyMaxByArea p0 ps ∈ p0 :: ps ∧
      ∀ q ∈ p0 :: ps, q.area ≤ (pyMaxByArea p0 ps).area) ∧
    (∃ pre post, p0 :: ps = pre ++ pyMaxByArea p0 ps :: post ∧
      ∀ x ∈ pre, x.area < (pyMaxByArea p0 ps).area) ∧
    validate_geometry (.multiPolygon (p0 :: ps)) =
      (if (pyMaxByArea p0 ps).is_valid then .ok (pyMaxByArea p0 ps)
       else if (buffer0 (pyMaxByArea p0 ps)).is_valid then .ok (buffer0 (pyMaxByArea p0 ps))
       else .error "AOI polygon is invalid and could not be fixed.") := by
  obtain ⟨pre, post, hdec, hpre, hall⟩ := pyMaxByArea_first_max ps p0
  refine ⟨⟨?_, hall⟩, ⟨pre, post, hdec, hpre⟩, validate_geometry_multi p0 ps⟩
  rw [hdec]
  exact List.mem_append.mpr (Or.inr (by simp))

/-- C7: for every valid simple polygon, normalization is the identity,
and hence idempotent: normalizing the output of a normalization returns
that very output. -/
theorem c7_normalize_idempotent (p : Poly) (h : p.is_valid = true) :
    validate_geometry (Geom.polygon p) = .ok p ∧
    (validate_geometry (Geom.polygon p)).bind
        (fun q => validate_geometry (Geom.polygon q)) =
      validate_geometry (Geom.polygon p) := by
  have h1 : validate_geometry (Geom.polygon p) = .ok p := by
    simp [validate_geometry, selectPoly, Geom.is_empty, h]
  exact ⟨h1, by rw [h1]; exact congrArg Except.ok rfl ▸ h1⟩

/-- C7 witness: a concrete valid polygon is returned unchanged and
renormalizing the output is a no-op. -/
theorem c7_normalize_idempotent_witness :
    (⟨1, true, true⟩ : Poly).is_valid = true ∧
    (validate_geometry (Geom.polygon ⟨1, true, true⟩) = .ok ⟨1, true, true⟩ ∧
      (validate_geometry (Geom.polygon ⟨1, true, true⟩)).bind
          (fun q => validate_geometry (Geom.polygon q)) =
        validate_geometry (Geom.polygon ⟨1, true, true⟩)) :=
  ⟨by decide, c7_normalize_idempotent ⟨1, true, true⟩ (by decide)⟩

/-- C2 counterexample: a two-record batch whose first AOI has an empty
geometry.  The claim says the failing AOI is skipped and the run
continues with the next record; in the code the `ValueError` from
`validate_geometry` is raised outside any try/except, so the whole run
aborts with that error even though the second record is perfectly
valid. -/
theorem c2_geometry_error_skip_counterexample :
    process_aois [Geom.emptyGeom, Geom.polygon ⟨1, true, true⟩] =
        .error "AOI geometry is empty." ∧
      validate_geometry (Geom.polygon ⟨1, true, true⟩) = .ok ⟨1, true, true⟩ := by
  constructor <;> rfl

/-- C2 amended: when geometry normalization fails on a record, the error
propagates uncaught: the run aborts at that record with the
normalization error, whatever records remain, instead of skipping it and
continuing. -/
theorem c2_geometry_error_aborts_run (pre : List Geom) (g : Geom)
    (rest : List Geom) (e : String)
    (hpre : ∀ x ∈ pre, ∃ p, validate_geometry x = .ok p)
    (hg : validate_geometry g = .error e) :
    process_aois (pre ++ g :: rest) = .error e := by
  induction pre with
  | nil =>
    simp only [List.nil_append, process_aois, hg]
  | cons a pre ih =>
    obtain ⟨p, hp⟩ := hpre a (by simp)
    have htail := ih (fun x hx => hpre x (by simp [hx]))
    have happ : pre.append (g :: rest) = pre ++ g :: rest := rfl
    simp only [List.cons_append, process_aois, hp, happ, htail]

/-- C2 amended witness: a good record followed by an empty-geometry
record and one more record; the run aborts with the geometry error. -/
theorem c2_geometry_error_aborts_run_witness :
    process_aois [Geom.polygon ⟨1, true, true⟩, Geom.emptyGeom, Geom.lineString] =
      .error "AOI geometry is empty." :=
  c2_geometry_error_aborts_run [Geom.polygon ⟨1, true, true⟩] Geom.emptyGeom
    [Geom.lineString] "AOI geometry is empty."
    (by
      intro x hx
      rw [List.mem_singleton] at hx
      subst hx
      exact ⟨⟨1, true, true⟩, rfl⟩)
    rfl

/-- C1 counterexample: with the default CLI date range, the date filter
the builder emits rejects an acquisition timestamp equal to the start
instant (start date at 00:00:00Z), so the start instant is excluded, not
included as the claim states. -/
theorem c1_start_instant_excluded_counterexample :
    (firstDateConfig (build_planet_filters (Geom.polygon ⟨1, true, true⟩)
        { start_date := "2020-09-01", end_date := "2020-12-31" })).map
      (fun c => c.matches "2020-09-01T00:00:00Z") = some false ∧
    (firstDateConfig (build_planet_filters (Geom.polygon ⟨1, true, true⟩)
        { start_date := "2020-09-01", end_date := "2020-12-31" })).map
      (fun c => c.matches "2020-09-01T00:00:01Z") = some true := by
  constructor <;> rfl

/-- C1 amended: for every search-parameter set, the date predicate the
filter builder emits restricts the acquisition timestamp to the open
interval (start, end) in UTC: the comparison keys are `gt` and `lt`,
both strict, so the start instant (start date at 00:00:00Z) is excluded
just like the end instant. -/
theorem c1_date_filter_open_interval (geometry : Geom) (params : SearchParams)
    (t : String) :
    ∃ c, firstDateConfig (build_planet_filters geometry params) = some c ∧
      (c.matches t = true ↔
        isoLt (params.start_date ++ "T00:00:00Z") t = true ∧
        isoLt t (params.end_date ++ "T00:00:00Z") = true) := by
  refine ⟨{ gt := some (params.start_date ++ "T00:00:00Z"),
            lt := some (params.end_date ++ "T00:00:00Z") }, rfl, ?_⟩
  simp [DateRangeConfig.matches]

theorem pollLoop_append (pre l : List PollResp)
    (hpre : ∀ x ∈ pre, x.ok = true ∧ x.state ≠ "success" ∧ x.state ≠ "failed") :
    pollLoop (pre ++ l) = pollLoop l := by
  induction pre with
  | nil => rfl
  | cons r pre ih =>
    obtain ⟨hok, hs, hf⟩ := hpre r (by simp)
    rw [List.cons_append]
    simp only [pollLoop, hok, hs, hf]
    simp only [not_true_eq_false, if_false, if_neg hs, if_neg hf]
    exact ih (fun x hx => hpre x (by simp [hx]))

/-- C4: on a trace of poll responses whose status fetches succeed, the
polling loop exits at the first response whose state is "success" or
"failed" — a prefix of any other state strings leaves it polling — and
on "failed" it raises an error carrying the provider's full status
payload. -/
theorem c4_poll_loop_terminal_states (pre : List PollResp) (r : PollResp)
    (rest : List PollResp) (order_id : String) (fetch : String → HttpFile)
    (hpre : ∀ x ∈ pre, x.ok = true ∧ x.state ≠ "success" ∧ x.state ≠ "failed")
    (hok : r.ok = true) :
    pollLoop pre = .polling ∧
    (r.state = "success" → pollLoop (pre ++ r :: rest) = .success r) ∧
    (r.state = "failed" →
      pollLoop (pre ++ r :: rest) = .orderFailed r ∧
      poll_and_package order_id (pre ++ r :: rest) fetch =
        .error ("Order " ++ order_id ++ " failed. Response: " ++ prettyPoll r)) := by
  have hnil : pollLoop pre = .polling := by
    have h₀ := pollLoop_append pre [] hpre
    rw [List.append_nil] at h₀
    exact h₀
  have hcons := pollLoop_append pre (r :: rest) hpre
  refine ⟨hnil, ?_, ?_⟩
  · intro hs
    rw [hcons]
    simp only [pollLoop, hok, not_true_eq_false, if_false, if_pos hs]
  · intro hf
    have hloop : pollLoop (pre ++ r :: rest) = .orderFailed r := by
      rw [hcons]
      have hns : r.state ≠ "success" := by rw [hf]; decide
      simp only [pollLoop, hok, not_true_eq_false, if_false, if_neg hns, if_pos hf]
    exact ⟨hloop, by simp only [poll_and_package, hloop]⟩

/-- C4 witness: one "queued" poll keeps the loop polling, and a
subsequent "failed" poll exits at that response with the error carrying
the status payload. -/
theorem c4_poll_loop_terminal_states_witness :
    pollLoop [⟨true, 200, "", "queued", []⟩] = .polling ∧
    pollLoop [⟨true, 200, "", "queued", []⟩, ⟨true, 200, "", "failed", []⟩] =
      .orderFailed ⟨true, 200, "", "failed", []⟩ ∧
    poll_and_package "o1"
        [⟨true, 200, "", "queued", []⟩, ⟨true, 200, "", "failed", []⟩]
        (fun _ => ⟨200, []⟩) =
      .error ("Order " ++ "o1" ++ " failed. Response: " ++
        prettyPoll ⟨true, 200, "", "failed", []⟩) := by
  have h := c4_poll_loop_terminal_states [⟨true, 200, "", "queued", []⟩]
    ⟨true, 200, "", "failed", []⟩ [] "o1" (fun _ => ⟨200, []⟩)
    (by decide) rfl
  exact ⟨h.1, (h.2.2 rfl).1, (h.2.2 rfl).2⟩

/-- C6: a successful search response whose feature list is longer than
the result cap is truncated to exactly the cap, keeping precisely the
first cap-many features in provider order; a list within the cap is
returned unchanged. -/
theorem c6_result_cap_truncation (resp : HttpResp) (data : SearchData)
    (fs : List Feature) (params : SearchParams)
    (hok : resp.ok = true) (hfs : data.features? = some fs) :
    ∃ out, quick_search resp data params = .ok out ∧
      (fs.length > params.result_limit →
        out.features? = some (fs.take params.result_limit) ∧
        (fs.take params.result_limit).length = params.result_limit) ∧
      (fs.length ≤ params.result_limit → out.features? = some fs) := by
  refine ⟨⟨some (if fs.length > params.result_limit
      then fs.take params.result_limit else fs)⟩, ?_, ?_, ?_⟩
  · simp [quick_search, hok, hfs]
  · intro hgt
    rw [if_pos hgt]
    exact ⟨rfl, by rw [List.length_take]; exact Nat.min_eq_left (le_of_lt hgt)⟩
  · intro hle
    rw [if_neg (by omega)]

/-- C6 witness: three features against a cap of two retain exactly the
first two; three features against the default cap are unchanged. -/
theorem c6_result_cap_truncation_witness :
    ∃ out, quick_search ⟨true, 200, ""⟩ ⟨some [⟨"a", "t"⟩, ⟨"b", "t"⟩, ⟨"c", "t"⟩]⟩
        { start_date := "2020-09-01", end_date := "2020-12-31", result_limit := 2 } =
      .ok out ∧
      (([⟨"a", "t"⟩, ⟨"b", "t"⟩, ⟨"c", "t"⟩] : List Feature).length > 2 →
        out.features? = some (([⟨"a", "t"⟩, ⟨"b", "t"⟩, ⟨"c", "t"⟩] : List Feature).take 2) ∧
        (([⟨"a", "t"⟩, ⟨"b", "t"⟩, ⟨"c", "t"⟩] : List Feature).take 2).length = 2) ∧
      (([⟨"a", "t"⟩, ⟨"b", "t"⟩, ⟨"c", "t"⟩] : List Feature).length ≤ 2 →
        out.features? = some [⟨"a", "t"⟩, ⟨"b", "t"⟩, ⟨"c", "t"⟩]) :=
  c6_result_cap_truncation ⟨true, 200, ""⟩ ⟨some [⟨"a", "t"⟩, ⟨"b", "t"⟩, ⟨"c", "t"⟩]⟩
    [⟨"a", "t"⟩, ⟨"b", "t"⟩, ⟨"c", "t"⟩]
    { start_date := "2020-09-01", end_date := "2020-12-31", result_limit := 2 }
    rfl rfl

/-- C8: order submission succeeds exactly on HTTP 202.  Any other
status code raises a hard error whose text names the status, and
neither polling nor download happens: the outcome does not depend on
the poll trace or on the download transport.  On 202 the run proceeds
to the polling phase with the acknowledged order id. -/
theorem c8_submission_requires_202 (submit : OrderAck)
    (polls polls' : List PollResp) (fetch fetch' : String → HttpFile) :
    (submit.status_code ≠ 202 →
      place_order_and_download submit polls fetch =
        .error ("Order failed: " ++ Nat.repr submit.status_code ++ " " ++ submit.text) ∧
      place_order_and_download submit polls fetch =
        place_order_and_download submit polls' fetch') ∧
    (submit.status_code = 202 →
      place_order_and_download submit polls fetch =
        poll_and_package submit.id polls fetch) := by
  constructor
  · intro h
    constructor <;> simp [place_order_and_download, h]
  · intro h
    simp [place_order_and_download, h]

/-- C8 witness: a 200 acknowledgement (success for most endpoints, but
not the explicit 202 accepted status) is a hard error regardless of the
poll trace, and a 202 acknowledgement proceeds to polling. -/
theorem c8_submission_requires_202_witness :
    place_order_and_download ⟨200, "OK", "o1", "l"⟩ [] (fun _ => ⟨200, []⟩) =
      .error ("Order failed: " ++ Nat.repr 200 ++ " " ++ "OK") ∧
    place_order_and_download ⟨200, "OK", "o1", "l"⟩ [] (fun _ => ⟨200, []⟩) =
      place_order_and_download ⟨200, "OK", "o1", "l"⟩
        [⟨true, 200, "", "success", [⟨"u", none⟩]⟩] (fun _ => ⟨200, [[1]]⟩) ∧
    place_order_and_download ⟨202, "", "o2", "l"⟩ [] (fun _ => ⟨200, []⟩) =
      poll_and_package "o2" [] (fun _ => ⟨200, []⟩) := by
  have h1 := c8_submission_requires_202 ⟨200, "OK", "o1", "l"⟩ []
    [⟨true, 200, "", "success", [⟨"u", none⟩]⟩] (fun _ => ⟨200, []⟩)
    (fun _ => ⟨200, [[1]]⟩)
  have h2 := c8_submission_requires_202 ⟨202, "", "o2", "l"⟩ [] []
    (fun _ => ⟨200, []⟩) (fun _ => ⟨200, []⟩)
  exact ⟨(h1.1 (by decide)).1, (h1.1 (by decide)).2, h2.2 rfl⟩

theorem flatten_filter_ne_nil (l : List (List ℕ)) :
    (l.filter (fun b => b ≠ [])).flatten = l.flatten := by
  induction l with
  | nil => rfl
  | cons a l ih =>
    by_cases h : a = []
    · subst h
      rw [List.filter_cons, if_neg (by decide), List.flatten_cons, ih]
      rfl
    · rw [List.filter_cons, if_pos (decide_eq_true h), List.flatten_cons,
        List.flatten_cons, ih]

theorem packageLoop_ok (fetch : String → HttpFile) (rs : List ResultDesc) :
    ∀ idx : ℕ, (∀ r ∈ rs, (fetch r.location).status_code < 400) →
      packageLoop fetch idx rs =
        .ok ((rs.enumFrom idx).map
          (fun p => (entry_name p.1 p.2, (fetch p.2.location).content))) := by
  induction rs with
  | nil => intro idx _; rfl
  | cons r rs ih =>
    intro idx h
    have hr : ¬ 400 ≤ (fetch r.location).status_code := by
      have := h r (by simp)
      omega
    have htail := ih (idx + 1) (fun x hx => h x (by simp [hx]))
    simp only [packageLoop, if_neg hr, htail, List.enumFrom_cons, List.map_cons,
      HttpFile.content, flatten_filter_ne_nil]

theorem digitChar_ne_slash (n : ℕ) : Nat.digitChar n ≠ '/' := by
  by_cases hn : n < 16
  · interval_cases n <;> decide
  · have hne : ¬ n = 0 ∧ ¬ n = 1 ∧ ¬ n = 2 ∧ ¬ n = 3 ∧ ¬ n = 4 ∧ ¬ n = 5 ∧
        ¬ n = 6 ∧ ¬ n = 7 ∧ ¬ n = 8 ∧ ¬ n = 9 ∧ ¬ n = 10 ∧ ¬ n = 11 ∧
        ¬ n = 12 ∧ ¬ n = 13 ∧ ¬ n = 14 ∧ ¬ n = 15 := by omega
    obtain ⟨e0, e1, e2, e3, e4, e5, e6, e7, e8, e9, ea, eb, ec, ed, ee, ef⟩ := hne
    simp only [Nat.digitChar, if_neg e0, if_neg e1, if_neg e2, if_neg e3,
      if_neg e4, if_neg e5, if_neg e6, if_neg e7, if_neg e8, if_neg e9,
      if_neg ea, if_neg eb, if_neg ec, if_neg ed, if_neg ee, if_neg ef]
    decide

theorem toDigitsCore_ne_slash (fuel : ℕ) :
    ∀ (n : ℕ) (acc : List Char), (∀ c ∈ acc, c ≠ '/') →
      ∀ c ∈ Nat.toDigitsCore 10 fuel n acc, c ≠ '/' := by
  induction fuel with
  | zero =>
    intro n acc hacc c hc
    exact hacc c hc
  | succ fuel ih =>
    intro n acc hacc c hc
    simp only [Nat.toDigitsCore] at hc
    by_cases h : n / 10 = 0
    · rw [if_pos h] at hc
      rcases List.mem_cons.mp hc with rfl | hc
      · exact digitChar_ne_slash _
      · exact hacc c hc
    · rw [if_neg h] at hc
      refine ih (n / 10) (Nat.digitChar (n % 10) :: acc) ?_ c hc
      intro d hd
      rcases List.mem_cons.mp hd with rfl | hd
      · exact digitChar_ne_slash _
      · exact hacc d hd

theorem natRepr_ne_slash (n : ℕ) : ∀ c ∈ (Nat.repr n).toList, c ≠ '/' := by
  intro c hc
  have heq : (Nat.repr n).toList = Nat.toDigitsCore 10 (n + 1) n [] := rfl
  rw [heq] at hc
  exact toDigitsCore_ne_slash (n + 1) n [] (by simp) c hc

theorem splitOnChar_not_mem (sep : Char) (cs : List Char) (h : sep ∉ cs) :
    splitOnChar sep cs = [cs] := by
  induction cs with
  | nil => rfl
  | cons c cs ih =>
    rw [List.mem_cons, not_or] at h
    rw [splitOnChar, ih h.2]
    exact if_neg (fun hcs => h.1 hcs.symm)

theorem pathName_no_sep (s : String) (h : '/' ∉ s.toList)
    (h1 : s.toList ≠ []) (h2 : s.toList ≠ ['.']) : pathName s = s := by
  unfold pathName
  rw [splitOnChar_not_mem '/' s.toList h]
  rw [List.foldl_cons, List.foldl_nil, if_neg (not_or.mpr ⟨h1, h2⟩)]
  cases s with
  | mk data => rfl

theorem pathName_result_default (idx : ℕ) :
    pathName ("result_" ++ Nat.repr idx) = "result_" ++ Nat.repr idx := by
  have hdata : ("result_" ++ Nat.repr idx).toList =
      ['r', 'e', 's', 'u', 'l', 't', '_'] ++ (Nat.repr idx).toList := rfl
  apply pathName_no_sep
  · rw [hdata]
    intro hmem
    rcases List.mem_append.mp hmem with hmem | hmem
    · revert hmem; decide
    · exact natRepr_ne_slash idx '/' hmem rfl
  · rw [hdata]; simp
  · rw [hdata]
    intro hdot
    have : 'r' = '.' := by
      have := List.cons.injEq 'r'
        (['e', 's', 'u', 'l', 't', '_'] ++ (Nat.repr idx).toList) '.' [] ▸ hdot
      exact this.1
    revert this; decide

/-- C5: for a completed order whose result downloads all succeed, the
archive write loop produces exactly one entry per result descriptor in
order, each entry holding byte-for-byte the bytes fetched from that
descriptor's location, named by the descriptor's suggested name with
directory components stripped (defaulting to result_idx, idx counted
from 1). -/
theorem c5_archive_entries (fetch : String → HttpFile) (results : List ResultDesc)
    (h1 : results ≠ [])
    (h2 : ∀ r ∈ results, (fetch r.location).status_code < 400) :
    ∃ entries, download_results fetch results = .ok entries ∧
      entries.length = results.length ∧
      entries = (results.enumFrom 1).map
        (fun p => (pathName (p.2.name.getD ("result_" ++ Nat.repr p.1)),
                   (fetch p.2.location).content)) := by
  refine ⟨(results.enumFrom 1).map
    (fun p => (pathName (p.2.name.getD ("result_" ++ Nat.repr p.1)),
               (fetch p.2.location).content)), ?_, ?_, rfl⟩
  · rw [download_results, if_neg h1]
    exact packageLoop_ok fetch results 1 h2
  · rw [List.length_map, List.enumFrom_length]

/-- C5 witness: two descriptors — one with a directory-qualified name,
one with no name — produce exactly two entries with basename keys and
the full downloaded bytes (empty chunks skipped). -/
theorem c5_archive_entries_witness :
    ([⟨"u1", some "d/a.tif"⟩, ⟨"u2", none⟩] : List ResultDesc) ≠ [] ∧
    ∃ entries, download_results (fun _ => ⟨200, [[1, 2], [], [3]]⟩)
        [⟨"u1", some "d/a.tif"⟩, ⟨"u2", none⟩] = .ok entries ∧
      entries.length = ([⟨"u1", some "d/a.tif"⟩, ⟨"u2", none⟩] : List ResultDesc).length ∧
      entries = (([⟨"u1", some "d/a.tif"⟩, ⟨"u2", none⟩] : List ResultDesc).enumFrom 1).map
        (fun p => (pathName (p.2.name.getD ("result_" ++ Nat.repr p.1)),
                   HttpFile.content ⟨200, [[1, 2], [], [3]]⟩)) :=
  ⟨by decide,
    c5_archive_entries (fun _ => ⟨200, [[1, 2], [], [3]]⟩)
      [⟨"u1", some "d/a.tif"⟩, ⟨"u2", none⟩] (by decide) (by decide)⟩

/-- C9: a result descriptor with no suggested name gets the default
entry name result_idx with idx its 1-based position, and packaging
succeeds. -/
theorem c9_missing_name_defaults (fetch : String → HttpFile)
    (results : List ResultDesc) (i : ℕ) (r : ResultDesc)
    (hi : results.get? i = some r) (hname : r.name = none)
    (h2 : ∀ x ∈ results, (fetch x.location).status_code < 400) :
    ∃ entries, download_results fetch results = .ok entries ∧
      (entries.get? i).map Prod.fst = some ("result_" ++ Nat.repr (i + 1)) := by
  have hne : results ≠ [] := by
    intro hnil
    subst hnil
    simp at hi
  refine ⟨(results.enumFrom 1).map
    (fun p => (entry_name p.1 p.2, (fetch p.2.location).content)), ?_, ?_⟩
  · rw [download_results, if_neg hne]
    exact packageLoop_ok fetch results 1 h2
  · have hmap : ((results.enumFrom 1).map
        (fun p => (entry_name p.1 p.2, (fetch p.2.location).content))).get? i =
        some (entry_name (1 + i) r, (fetch r.location).content) := by
      rw [List.get?_map, List.enumFrom_get?, hi]
      rfl
    rw [hmap]
    show some (entry_name (1 + i) r) = some ("result_" ++ Nat.repr (i + 1))
    rw [entry_name, hname, Option.getD_none, Nat.add_comm 1 i,
      pathName_result_default]

/-- C9 witness: a single descriptor with no name packages successfully
under the entry name result_1. -/
theorem c9_missing_name_defaults_witness :
    ∃ entries, download_results (fun _ => ⟨200, [[5]]⟩)
        [(⟨"u", none⟩ : ResultDesc)] = .ok entries ∧
      (entries.get? 0).map Prod.fst = some ("result_" ++ Nat.repr (0 + 1)) :=
  c9_missing_name_defaults (fun _ => ⟨200, [[5]]⟩) [⟨"u", none⟩] 0 ⟨"u", none⟩
    rfl rfl (by decide)

/-- C10: with a non-empty scene-id override matching no returned
feature, the chosen order id is the override itself, while the
item-type sent with the order is resolved from the first returned
feature. -/
theorem c10_unmatched_override_uses_first_item_type (item_id_arg : String)
    (f0 : Feature) (rest : List Feature)
    (h1 : pyStrip item_id_arg ≠ "")
    (h2 : ∀ f ∈ f0 :: rest, f.id ≠ pyStrip item_id_arg) :
    resolve_order_target item_id_arg f0 rest =
      (pyStrip item_id_arg, f0.item_type) := by
  have hfind : (f0 :: rest).find? (fun f => f.id == pyStrip item_id_arg) = none := by
    rw [List.find?_eq_none]
    intro x hx
    simp [h2 x hx]
  simp only [resolve_order_target, if_neg h1, hfind, Option.getD_none]

/-- C10 witness: override "XYZ" matches neither feature; the order pair
is ("XYZ", item type of the first feature). -/
theorem c10_unmatched_override_witness :
    pyStrip " XYZ " ≠ "" ∧
    resolve_order_target " XYZ " ⟨"A", "PSScene"⟩ [⟨"B", "SkySat"⟩] =
      (pyStrip " XYZ ", "PSScene") :=
  ⟨by decide,
    c10_unmatched_override_uses_first_item_type " XYZ " ⟨"A", "PSScene"⟩
      [⟨"B", "SkySat"⟩] (by decide) (by decide)⟩

end Planet
